import Mathlib

/-!
# Verification of the turn-based tower-defense simulation

Shallow embedding of `src/week2/tower_defense_game.py`:
the classes `Enemy`, `Tower` and `Game` become Lean structures, their
methods become pure functions (Python in-place mutation becomes explicit
state passing), and the `print` output of a turn becomes returned report
data.  Python `float` coordinates are modelled as exact rationals `ℚ`
(the spec treats coordinates as real-valued); health and attack power are
Python `int`, modelled as `ℤ`; turn counters are `ℕ`.
-/

/-- The `Enemy` class: name, position `(x, y)`, per-turn movement vector
`(dx, dy)`, integer life, and the alive flag. -/
structure Enemy where
  name : String
  x : ℚ
  y : ℚ
  dx : ℚ
  dy : ℚ
  life : ℤ
  alive : Bool
deriving DecidableEq

/-- `Enemy.__init__`: stores all fields and sets `alive` to `True`
unconditionally (the Python constructor never inspects `life`; its default
argument `life=10` is supplied explicitly at every call site below). -/
def Enemy.init (name : String) (x y dx dy : ℚ) (life : ℤ) : Enemy :=
  { name := name, x := x, y := y, dx := dx, dy := dy, life := life, alive := true }

/-- `Enemy.move`: if alive, add the movement vector to the position;
otherwise do nothing. -/
def Enemy.move (e : Enemy) : Enemy :=
  if e.alive then { e with x := e.x + e.dx, y := e.y + e.dy } else e

/-- `Enemy.take_damage`: if alive, subtract `damage` from `life`; if the
result is `≤ 0`, set `alive` to false and clamp `life` to `0`. -/
def Enemy.take_damage (e : Enemy) (damage : ℤ) : Enemy :=
  if e.alive then
    if e.life - damage ≤ 0 then { e with life := 0, alive := false }
    else { e with life := e.life - damage }
  else e

/-- `Enemy.is_alive`: returns the alive flag. -/
def Enemy.is_alive (e : Enemy) : Bool := e.alive

/-- The `Tower` class: name, fixed position, attack power and attack range. -/
structure Tower where
  name : String
  x : ℚ
  y : ℚ
  attack_power : ℤ
  attack_range : ℚ
deriving DecidableEq

/-- The squared Euclidean distance `(self.x - enemy.x)**2 + (self.y - enemy.y)**2`;
`Tower.distance_to` in the source is `math.sqrt` of this quantity. -/
def Tower.dist_sq_to (t : Tower) (e : Enemy) : ℚ :=
  (t.x - e.x) ^ 2 + (t.y - e.y) ^ 2

/-- `Tower.can_attack`: `enemy.is_alive() and self.distance_to(enemy) <= self.attack_range`.
Over the reals, `Real.sqrt d ≤ r` holds iff `0 ≤ r ∧ d ≤ r ^ 2`, so the
comparison is embedded by that right-hand side to keep the definition
computable over `ℚ`; the equivalence with the square-root form is proved
in the theorem for claim C3 below. -/
def Tower.can_attack (t : Tower) (e : Enemy) : Bool :=
  e.is_alive && (decide (0 ≤ t.attack_range) && decide (t.dist_sq_to e ≤ t.attack_range ^ 2))

/-- `Tower.attack`: iterate over the enemy list; every enemy for which
`can_attack` holds takes `attack_power` damage and has its name appended
to the returned `attacked_enemies` list. Returns the updated enemies
(the Python loop mutates them in place) together with that name list. -/
def Tower.attack (t : Tower) : List Enemy → List Enemy × List String
  | [] => ([], [])
  | e :: es =>
    let rest := t.attack es
    if t.can_attack e then
      (e.take_damage t.attack_power :: rest.1, e.name :: rest.2)
    else
      (e :: rest.1, rest.2)

/-- One enemy's entry in a turn report / final report: the fields the
source prints (`name`, position, life, alive status). -/
structure EnemySnapshot where
  name : String
  x : ℚ
  y : ℚ
  life : ℤ
  alive : Bool
deriving DecidableEq

/-- The printed status of one enemy. -/
def Enemy.snapshot (e : Enemy) : EnemySnapshot :=
  { name := e.name, x := e.x, y := e.y, life := e.life, alive := e.alive }

/-- What `Game.run_turn` prints for one turn: the turn number, each
tower's name with the names it attacked, and each enemy's end-of-turn
status. -/
structure TurnReport where
  turn : ℕ
  attacks : List (String × List String)
  status : List EnemySnapshot
deriving DecidableEq

/-- The state held by the `Game` class: turn counter, configured maximum,
and the two entity collections. -/
structure GameState where
  current_turn : ℕ
  max_turns : ℕ
  enemies : List Enemy
  towers : List Tower
deriving DecidableEq

/-- The attack phase of `Game.run_turn`: each tower, in collection order,
attacks the current enemy list (so a later tower sees the damage already
applied by an earlier one); the per-tower attacked-name lists are
collected in order. -/
def attack_phase (es : List Enemy) : List Tower → List Enemy × List (String × List String)
  | [] => (es, [])
  | t :: ts =>
    let r := t.attack es
    let rest := attack_phase r.1 ts
    (rest.1, (t.name, r.2) :: rest.2)

/-- `Game.run_turn`: increment the turn counter, move every enemy
(`Enemy.move` itself is a no-op on dead enemies, matching the source's
`is_alive` guard around the call), then run the attack phase, then report
the end-of-turn status.  The source performs no check of the counter
against `max_turns` and raises nothing. -/
def Game.run_turn (s : GameState) : GameState × TurnReport :=
  let turn := s.current_turn + 1
  let moved := s.enemies.map Enemy.move
  let r := attack_phase moved s.towers
  ({ s with current_turn := turn, enemies := r.1 },
   { turn := turn, attacks := r.2, status := r.1.map Enemy.snapshot })

/-- The state transition of one turn (the state component of `run_turn`). -/
def Game.step (s : GameState) : GameState := (Game.run_turn s).1

/-- `n` consecutive calls of `run_turn`, collecting the turn reports in
order (the loop body of `Game.run_game`). -/
def Game.run_turns : ℕ → GameState → GameState × List TurnReport
  | 0, s => (s, [])
  | n + 1, s =>
    let r := Game.run_turn s
    let rest := Game.run_turns n r.1
    (rest.1, r.2 :: rest.2)

/-- The observable output of `Game.run_game`: the per-turn reports and the
final per-enemy summary printed by `print_results`. -/
structure GameResult where
  reports : List TurnReport
  final : List EnemySnapshot
deriving DecidableEq

/-- `Game.run_game`: run `run_turn` exactly `max_turns` times, then report
the final status of every enemy. -/
def Game.run_game (s : GameState) : GameResult :=
  let r := Game.run_turns s.max_turns s
  { reports := r.2, final := r.1.enemies.map Enemy.snapshot }

/-- `Game.__init__`: the hard-coded scenario — turn counter 0, ten turns,
three enemies (default life 10) and six towers. -/
def Game.init : GameState :=
  { current_turn := 0, max_turns := 10,
    enemies :=
      [ Enemy.init "E1" (-10) 2 2 (-1) 10,
        Enemy.init "E2" (-8) 0 3 1 10,
        Enemy.init "E3" (-9) (-1) 3 0 10 ],
    towers :=
      [ { name := "T1", x := -3, y := 2, attack_power := 1, attack_range := 2 },
        { name := "T2", x := -1, y := -2, attack_power := 1, attack_range := 2 },
        { name := "T3", x := 4, y := 2, attack_power := 1, attack_range := 2 },
        { name := "T4", x := 7, y := 0, attack_power := 1, attack_range := 2 },
        { name := "A1", x := 1, y := 1, attack_power := 2, attack_range := 4 },
        { name := "A2", x := 4, y := -3, attack_power := 2, attack_range := 4 } ] }

/-- The effect of one tower's attack on one enemy (the body of the loop in
`Tower.attack`, which treats each list entry independently). -/
def tower_step (t : Tower) (e : Enemy) : Enemy :=
  if t.can_attack e then e.take_damage t.attack_power else e

/-- The effect of the whole attack phase on one enemy: each tower's step
applied in collection order. -/
def towers_step (ts : List Tower) (e : Enemy) : Enemy :=
  ts.foldl (fun a t => tower_step t a) e

/-- A dead sample enemy, used as concrete input in witness theorems. -/
def eDead : Enemy :=
  { name := "D", x := 3, y := 4, dx := 1, dy := 1, life := 0, alive := false }

/-- An alive sample enemy at `(3, 4)`, used as concrete input in witness
theorems. -/
def eLive : Enemy :=
  { name := "L", x := 3, y := 4, dx := 1, dy := 0, life := 10, alive := true }

/-- A sample tower at the origin with range `5`, so that `eLive` sits at
distance exactly `5` (the inclusive boundary). -/
def tRange5 : Tower :=
  { name := "T", x := 0, y := 0, attack_power := 3, attack_range := 5 }

/-- A sample tower at the origin with range `1`, which reaches neither
sample enemy. -/
def tNarrow : Tower :=
  { name := "N", x := 0, y := 0, attack_power := 1, attack_range := 1 }

/-- The hard-coded game with its turn counter already at `max_turns`,
used to exercise `run_turn` past the configured maximum. -/
def sAtMax : GameState := { Game.init with current_turn := 10 }

/-- A small game whose turn counter has already reached its configured
maximum of 5 turns, used to exercise `run_turn` past the maximum. -/
def sOver : GameState :=
  { current_turn := 5, max_turns := 5, enemies := [eLive], towers := [] }

/-- A small game containing only the dead sample enemy. -/
def sDead : GameState :=
  { current_turn := 0, max_turns := 3, enemies := [eDead], towers := [tRange5] }

/-! ## Basic lemmas about the embedded operations -/

theorem move_life (e : Enemy) : e.move.life = e.life := by
  unfold Enemy.move; split <;> rfl

theorem move_alive (e : Enemy) : e.move.alive = e.alive := by
  unfold Enemy.move; split <;> rfl

theorem move_dead (e : Enemy) (h : e.alive = false) : e.move = e := by
  simp [Enemy.move, h]

theorem take_damage_dead (e : Enemy) (d : ℤ) (h : e.alive = false) :
    e.take_damage d = e := by
  simp [Enemy.take_damage, h]

theorem can_attack_dead (t : Tower) (e : Enemy) (h : e.alive = false) :
    t.can_attack e = false := by
  simp [Tower.can_attack, Enemy.is_alive, h]

theorem tower_step_dead (t : Tower) (e : Enemy) (h : e.alive = false) :
    tower_step t e = e := by
  simp [tower_step, can_attack_dead t e h]

theorem towers_step_cons (t : Tower) (ts : List Tower) (e : Enemy) :
    towers_step (t :: ts) e = towers_step ts (tower_step t e) := rfl

theorem towers_step_dead (ts : List Tower) (e : Enemy) (h : e.alive = false) :
    towers_step ts e = e := by
  induction ts with
  | nil => rfl
  | cons t ts ih => rw [towers_step_cons, tower_step_dead t e h, ih]

theorem attack_fst (t : Tower) (es : List Enemy) :
    (t.attack es).1 = es.map (tower_step t) := by
  induction es with
  | nil => rfl
  | cons e es ih =>
    by_cases h : t.can_attack e <;> simp [Tower.attack, tower_step, h, ih]

theorem attack_snd (t : Tower) (es : List Enemy) :
    (t.attack es).2 = (es.filter t.can_attack).map Enemy.name := by
  induction es with
  | nil => rfl
  | cons e es ih =>
    by_cases h : t.can_attack e <;> simp [Tower.attack, List.filter_cons, h, ih]

theorem attack_phase_fst (ts : List Tower) (es : List Enemy) :
    (attack_phase es ts).1 = es.map (towers_step ts) := by
  induction ts generalizing es with
  | nil =>
    have h : List.map (towers_step []) es = List.map id es :=
      List.map_congr_left fun e _ => rfl
    simpa using h.symm
  | cons t ts ih =>
    show (attack_phase (t.attack es).1 ts).1 = _
    rw [ih, attack_fst, List.map_map]
    rfl

theorem step_enemies (s : GameState) :
    (Game.step s).enemies = s.enemies.map (fun e => towers_step s.towers e.move) := by
  show (attack_phase (s.enemies.map Enemy.move) s.towers).1 = _
  rw [attack_phase_fst, List.map_map]
  rfl

theorem step_towers (s : GameState) : (Game.step s).towers = s.towers := rfl

theorem iterate_step_towers (s : GameState) (n : ℕ) :
    (Game.step^[n] s).towers = s.towers := by
  induction n with
  | zero => rfl
  | succ n ih => rw [Function.iterate_succ_apply', step_towers, ih]

theorem step_enemies_getElem (s : GameState) (i : ℕ) :
    (Game.step s).enemies[i]? = (s.enemies[i]?).map (fun e => towers_step s.towers e.move) := by
  rw [step_enemies]
  exact List.getElem?_map ..

theorem take_damage_life_bounds (e : Enemy) (d : ℤ) (hd : 0 ≤ d) (h0 : ℤ)
    (hl : 0 ≤ e.life) (hu : e.life ≤ h0) :
    0 ≤ (e.take_damage d).life ∧ (e.take_damage d).life ≤ h0 := by
  by_cases ha : e.alive
  · by_cases hc : e.life - d ≤ 0 <;> simp [Enemy.take_damage, ha, hc] <;> omega
  · rw [take_damage_dead e d (by simpa using ha)]
    exact ⟨hl, hu⟩

theorem tower_step_life_bounds (t : Tower) (hp : 0 ≤ t.attack_power) (e : Enemy)
    (h0 : ℤ) (hl : 0 ≤ e.life) (hu : e.life ≤ h0) :
    0 ≤ (tower_step t e).life ∧ (tower_step t e).life ≤ h0 := by
  unfold tower_step
  split
  · exact take_damage_life_bounds e t.attack_power hp h0 hl hu
  · exact ⟨hl, hu⟩

theorem towers_step_life_bounds (ts : List Tower) (hp : ∀ t ∈ ts, 0 ≤ t.attack_power)
    (e : Enemy) (h0 : ℤ) (hl : 0 ≤ e.life) (hu : e.life ≤ h0) :
    0 ≤ (towers_step ts e).life ∧ (towers_step ts e).life ≤ h0 := by
  induction ts generalizing e with
  | nil => exact ⟨hl, hu⟩
  | cons t ts ih =>
    rw [towers_step_cons]
    have h1 := tower_step_life_bounds t (hp t (by simp)) e h0 hl hu
    exact ih (fun u hu2 => hp u (by simp [hu2])) (tower_step t e) h1.1 h1.2

theorem run_turns_length (n : ℕ) (s : GameState) :
    (Game.run_turns n s).2.length = n := by
  induction n generalizing s with
  | zero => rfl
  | succ n ih => simp [Game.run_turns, ih]

theorem run_turns_fst (n : ℕ) (s : GameState) :
    (Game.run_turns n s).1 = Game.step^[n] s := by
  induction n generalizing s with
  | zero => rfl
  | succ n ih =>
    rw [Function.iterate_succ_apply]
    exact ih (Game.step s)

/-! ## Claim theorems -/

/-- C1: In every turn executed by the engine, movement is applied to every
hostile (in collection order; `Enemy.move` leaves dead ones unchanged)
before any tower's attack is evaluated; each tower then attacks exactly
the enemies that are currently attackable, `can_attack` is false for a
dead enemy, and a dead enemy's entry is left unchanged by a tower's
attack — so an enemy killed by an earlier defender in the same attack
phase is skipped (not attacked) by every later defender in that phase. -/
theorem run_turn_moves_then_attacks_skipping_dead :
    (∀ s : GameState,
        (Game.run_turn s).1.enemies = (attack_phase (s.enemies.map Enemy.move) s.towers).1)
    ∧ (∀ (t : Tower) (es : List Enemy),
        (t.attack es).2 = (es.filter t.can_attack).map Enemy.name)
    ∧ (∀ (t : Tower) (e : Enemy), e.alive = false → t.can_attack e = false)
    ∧ (∀ (t : Tower) (es : List Enemy) (i : ℕ) (e : Enemy),
        es[i]? = some e → e.alive = false → (t.attack es).1[i]? = some e) := by
  refine ⟨fun s => rfl, attack_snd, can_attack_dead, ?_⟩
  intro t es i e he hd
  rw [attack_fst, List.getElem?_map, he]
  simp [tower_step_dead t e hd]

/-- Witness for C1 at concrete inputs: the dead sample enemy is not
attackable and is left untouched, in place, by an attack on a list that
contains it. -/
theorem run_turn_moves_then_attacks_skipping_dead_witness :
    tRange5.can_attack eDead = false ∧
      (tRange5.attack [eDead, eLive]).1[0]? = some eDead := by
  have h := run_turn_moves_then_attacks_skipping_dead
  exact ⟨h.2.2.1 tRange5 eDead rfl, h.2.2.2 tRange5 [eDead, eLive] 0 eDead rfl rfl⟩

/-- C2: `take_damage` on an alive enemy subtracts the amount from its
life; if the result is `≤ 0` the life is set to exactly `0` and the alive
flag to false, otherwise the enemy stays alive with the reduced life; for
a non-negative amount the resulting life is never negative. -/
theorem take_damage_spec (e : Enemy) (d : ℤ) (ha : e.alive = true) :
    ((e.take_damage d).life = if e.life - d ≤ 0 then 0 else e.life - d)
    ∧ (e.life - d ≤ 0 → (e.take_damage d).alive = false ∧ (e.take_damage d).life = 0)
    ∧ (0 < e.life - d → (e.take_damage d).alive = true ∧ (e.take_damage d).life = e.life - d)
    ∧ (0 ≤ d → 0 ≤ (e.take_damage d).life) := by
  refine ⟨?_, fun hc => ?_, fun hc => ?_, fun hd => ?_⟩
  · by_cases hc : e.life - d ≤ 0 <;> simp [Enemy.take_damage, ha, hc]
  · simp [Enemy.take_damage, ha, hc]
  · have hc2 : ¬ e.life - d ≤ 0 := by omega
    simp [Enemy.take_damage, ha, hc2]
  · by_cases hc : e.life - d ≤ 0 <;> simp [Enemy.take_damage, ha, hc] <;> omega

/-- Witness for C2: damage 12 on the alive sample enemy with life 10
clamps its life to 0 and kills it. -/
theorem take_damage_spec_witness :
    (eLive.take_damage 12).alive = false ∧ (eLive.take_damage 12).life = 0 ∧
      0 ≤ (eLive.take_damage 12).life := by
  have h := take_damage_spec eLive 12 rfl
  exact ⟨(h.2.1 (by decide)).1, (h.2.1 (by decide)).2, h.2.2.2 (by decide)⟩

/-- C3: `can_attack` returns true iff the hostile is alive and the
Euclidean distance from the tower to the hostile is at most the attack
range (inclusive boundary, stated via `Real.sqrt`); a dead hostile is
never attackable regardless of distance. -/
theorem can_attack_iff_alive_and_in_range (t : Tower) (e : Enemy) :
    (t.can_attack e = true ↔
      (e.is_alive = true ∧
        Real.sqrt (((t.x : ℝ) - (e.x : ℝ)) ^ 2 + ((t.y : ℝ) - (e.y : ℝ)) ^ 2)
          ≤ (t.attack_range : ℝ)))
    ∧ (e.is_alive = false → t.can_attack e = false) := by
  have key : Real.sqrt (((t.x : ℝ) - (e.x : ℝ)) ^ 2 + ((t.y : ℝ) - (e.y : ℝ)) ^ 2)
      ≤ (t.attack_range : ℝ)
      ↔ (0 ≤ t.attack_range ∧ t.dist_sq_to e ≤ t.attack_range ^ 2) := by
    rw [Real.sqrt_le_iff, Tower.dist_sq_to]
    constructor
    · rintro ⟨h1, h2⟩
      exact ⟨by exact_mod_cast h1, by exact_mod_cast h2⟩
    · rintro ⟨h1, h2⟩
      exact ⟨by exact_mod_cast h1, by exact_mod_cast h2⟩
  constructor
  · simp only [Tower.can_attack, Bool.and_eq_true, decide_eq_true_eq]
    rw [key]
  · intro h
    exact can_attack_dead t e (by simpa [Enemy.is_alive] using h)

/-- Witness for C3: the alive sample enemy sits at distance exactly 5
from the range-5 sample tower and is attackable (inclusive boundary); the
dead sample enemy at the same spot is not attackable. -/
theorem can_attack_iff_alive_and_in_range_witness :
    tRange5.can_attack eLive = true ∧ tRange5.can_attack eDead = false := by
  constructor
  · refine (can_attack_iff_alive_and_in_range tRange5 eLive).1.mpr ⟨rfl, ?_⟩
    have hx : ((tRange5.x : ℝ) - (eLive.x : ℝ)) ^ 2 + ((tRange5.y : ℝ) - (eLive.y : ℝ)) ^ 2
        = 5 ^ 2 := by
      norm_num [tRange5, eLive]
    rw [hx, Real.sqrt_sq (by norm_num : (0:ℝ) ≤ 5)]
    norm_num [tRange5]
  · exact (can_attack_iff_alive_and_in_range tRange5 eDead).2 rfl

/-- C4: `attack` damages, by `take_damage` with the tower's attack power,
exactly the enemies for which `can_attack` holds, returns the attacked
names in the iteration order of the input list, and when no enemy is
attackable it mutates nothing and returns the empty list. -/
theorem attack_spec (t : Tower) (es : List Enemy) :
    ((t.attack es).1 =
        es.map (fun e => if t.can_attack e then e.take_damage t.attack_power else e))
    ∧ ((t.attack es).2 = (es.filter t.can_attack).map Enemy.name)
    ∧ ((∀ e ∈ es, t.can_attack e = false) →
        (t.attack es).1 = es ∧ (t.attack es).2 = []) := by
  refine ⟨attack_fst t es, attack_snd t es, fun h => ⟨?_, ?_⟩⟩
  · rw [attack_fst]
    have h1 : es.map (tower_step t) = es.map id :=
      List.map_congr_left fun e he => by simp [tower_step, h e he]
    simpa using h1
  · rw [attack_snd, List.filter_eq_nil_iff.mpr (fun e he => by simp [h e he])]
    rfl

/-- Witness for C4: the range-1 sample tower reaches neither sample
enemy, so its attack changes nothing and reports no names. -/
theorem attack_spec_witness :
    (tNarrow.attack [eLive, eDead]).1 = [eLive, eDead] ∧
      (tNarrow.attack [eLive, eDead]).2 = [] := by
  have h1 : tNarrow.can_attack eLive = false := by
    norm_num [Tower.can_attack, Tower.dist_sq_to, Enemy.is_alive, tNarrow, eLive]
  have h2 : tNarrow.can_attack eDead = false := by
    norm_num [Tower.can_attack, Enemy.is_alive, eDead]
  refine (attack_spec tNarrow [eLive, eDead]).2.2 ?_
  intro e he
  rcases List.mem_cons.mp he with rfl | he2
  · exact h1
  · rcases List.mem_cons.mp he2 with rfl | he3
    · exact h2
    · exact absurd he3 (List.not_mem_nil e)

/-- C5: with every tower's attack power positive, an enemy that starts
with positive life `h0` has, after any number of turns of the simulation,
an integer life value in the interval `[0, h0]`. -/
theorem health_in_initial_interval (s : GameState)
    (hp : ∀ t ∈ s.towers, 0 < t.attack_power)
    (i : ℕ) (e : Enemy) (he : s.enemies[i]? = some e)
    (h0 : ℤ) (hh : e.life = h0) (hpos : 0 < h0) :
    ∀ n : ℕ, ∃ e2 : Enemy, (Game.step^[n] s).enemies[i]? = some e2 ∧
      0 ≤ e2.life ∧ e2.life ≤ h0 := by
  intro n
  induction n with
  | zero => exact ⟨e, by simpa using he, by omega, by omega⟩
  | succ n ih =>
    obtain ⟨e2, he2, hl2, hu2⟩ := ih
    have hs : (Game.step^[n + 1] s).enemies[i]?
        = ((Game.step^[n] s).enemies[i]?).map (fun a => towers_step s.towers a.move) := by
      rw [Function.iterate_succ_apply', step_enemies_getElem, iterate_step_towers]
    have hb := towers_step_life_bounds s.towers (fun t ht => le_of_lt (hp t ht))
      e2.move h0 (by rw [move_life]; exact hl2) (by rw [move_life]; exact hu2)
    exact ⟨towers_step s.towers e2.move, by rw [hs, he2]; rfl, hb.1, hb.2⟩

/-- Witness for C5: enemy `E1` of the hard-coded game after 2 turns. -/
theorem health_in_initial_interval_witness :
    ∃ e2 : Enemy, (Game.step^[2] Game.init).enemies[0]? = some e2 ∧
      0 ≤ e2.life ∧ e2.life ≤ 10 :=
  health_in_initial_interval Game.init (by decide) 0
    (Enemy.init "E1" (-10) 2 2 (-1) 10) rfl 10 rfl (by omega) 2

/-- C6: an enemy whose alive flag is false is completely unchanged by
every later turn — in particular its alive flag never reverts to true and
its position never changes after the turn in which it died. -/
theorem dead_enemy_never_changes (s : GameState) (i : ℕ) (e : Enemy)
    (he : s.enemies[i]? = some e) (hd : e.alive = false) :
    ∀ n : ℕ, (Game.step^[n] s).enemies[i]? = some e := by
  intro n
  induction n with
  | zero => simpa using he
  | succ n ih =>
    rw [Function.iterate_succ_apply', step_enemies_getElem, ih]
    simp [move_dead e hd, towers_step_dead _ e hd]

/-- Witness for C6: the dead sample enemy is untouched after 3 turns of
the small sample game. -/
theorem dead_enemy_never_changes_witness :
    (Game.step^[3] sDead).enemies[0]? = some eDead :=
  dead_enemy_never_changes sDead 0 eDead rfl rfl 3

/-- C7 counterexample: calling `run_turn` on a game whose counter has
already reached `max_turns` raises no error and is no no-op — it executes
a normal extra turn: the counter advances to 6 (past the maximum of 5)
and the enemy moves from `(3, 4)` to `(4, 4)`. -/
theorem run_turn_beyond_max_executes_counterexample :
    sOver.current_turn = sOver.max_turns ∧
    (Game.run_turn sOver).1.current_turn = 6 ∧
    (Game.run_turn sOver).1.enemies[0]? = some { eLive with x := 4, y := 4 } := by
  refine ⟨rfl, rfl, ?_⟩
  norm_num [Game.run_turn, sOver, attack_phase, Enemy.move, eLive, Enemy.mk.injEq]

/-- C7 as amended: `run_turn` performs no check of the turn counter; even
once the counter has reached `max_turns` it executes a further normal
turn (movement then attack phase, counter incremented) with no failure
signalled. -/
theorem run_turn_beyond_max_is_normal_turn (s : GameState)
    (h : s.max_turns ≤ s.current_turn) :
    (Game.run_turn s).1.current_turn = s.current_turn + 1
    ∧ (Game.run_turn s).1.enemies = (attack_phase (s.enemies.map Enemy.move) s.towers).1
    ∧ (Game.run_turn s).2.turn = s.current_turn + 1 :=
  ⟨rfl, rfl, rfl⟩

/-- Witness for the amended C7 at the sample game `sOver`. -/
theorem run_turn_beyond_max_is_normal_turn_witness :
    (Game.run_turn sOver).1.current_turn = sOver.current_turn + 1
    ∧ (Game.run_turn sOver).1.enemies
        = (attack_phase (sOver.enemies.map Enemy.move) sOver.towers).1
    ∧ (Game.run_turn sOver).2.turn = sOver.current_turn + 1 :=
  run_turn_beyond_max_is_normal_turn sOver (by decide)

/-- C8: `run_game` executes `run_turn` exactly `max_turns` times in
sequence — for every state, hence also when all hostiles are already
dead — and returns the ordered list of the per-turn reports plus the
final status of every enemy. -/
theorem run_game_runs_exactly_max_turns (s : GameState) :
    (Game.run_game s).reports.length = s.max_turns
    ∧ (Game.run_game s).reports = (Game.run_turns s.max_turns s).2
    ∧ (Game.run_game s).final = (Game.step^[s.max_turns] s).enemies.map Enemy.snapshot
    ∧ ∀ n : ℕ, (Game.run_turns (n + 1) s).2
        = (Game.run_turn s).2 :: (Game.run_turns n (Game.step s)).2 := by
  refine ⟨run_turns_length s.max_turns s, rfl, ?_, fun n => rfl⟩
  show (Game.run_turns s.max_turns s).1.enemies.map Enemy.snapshot = _
  rw [run_turns_fst]

/-- C9: `run_game` is deterministic — two games with identical initial
entity collections, turn counter and `max_turns` produce identical
per-turn reports and final states (the embedding is a pure function of
the state: no randomness, no clock). -/
theorem run_game_deterministic (s1 s2 : GameState)
    (hc : s1.current_turn = s2.current_turn) (hm : s1.max_turns = s2.max_turns)
    (he : s1.enemies = s2.enemies) (ht : s1.towers = s2.towers) :
    Game.run_game s1 = Game.run_game s2 := by
  have h : s1 = s2 := by cases s1; cases s2; simp_all
  rw [h]

/-- Witness for C9 at the hard-coded game. -/
theorem run_game_deterministic_witness :
    Game.run_game Game.init = Game.run_game Game.init :=
  run_game_deterministic Game.init Game.init rfl rfl rfl rfl

/-- C10: an enemy constructed with non-positive life is nevertheless
alive (`__init__` sets the flag unconditionally), and a subsequent `move`
applies the movement vector to its position — changing the position
whenever the vector is non-zero. -/
theorem init_nonpositive_life_still_alive (name : String) (x y dx dy : ℚ)
    (life : ℤ) (h : life ≤ 0) :
    (Enemy.init name x y dx dy life).is_alive = true
    ∧ (Enemy.init name x y dx dy life).move.x = x + dx
    ∧ (Enemy.init name x y dx dy life).move.y = y + dy
    ∧ (¬(dx = 0 ∧ dy = 0) →
        ((Enemy.init name x y dx dy life).move.x ≠ x ∨
          (Enemy.init name x y dx dy life).move.y ≠ y)) := by
  refine ⟨rfl, rfl, rfl, fun hne => ?_⟩
  by_cases hdx : dx = 0
  · right
    have hdy : dy ≠ 0 := fun hdy => hne ⟨hdx, hdy⟩
    show y + dy ≠ y
    intro hy
    exact hdy (by linarith)
  · left
    show x + dx ≠ x
    intro hx
    exact hdx (by linarith)

/-- Witness for C10: an enemy constructed with life `-5` is alive and its
first `move` changes its position. -/
theorem init_nonpositive_life_still_alive_witness :
    (Enemy.init "Z" 0 0 1 0 (-5)).is_alive = true
    ∧ (Enemy.init "Z" 0 0 1 0 (-5)).move.x = 0 + 1
    ∧ ((Enemy.init "Z" 0 0 1 0 (-5)).move.x ≠ 0 ∨
        (Enemy.init "Z" 0 0 1 0 (-5)).move.y ≠ 0) := by
  have h := init_nonpositive_life_still_alive "Z" 0 0 1 0 (-5) (by omega)
  exact ⟨h.1, h.2.1, h.2.2.2 (by norm_num)⟩
